import Mathlib

/-!
Verification development for the `nordpool` crate (`src/lib.rs`).

The crate retrieves hourly day-ahead electricity prices for a Nordic bidding
area and turns each row of the API response into a fully loaded consumer
price (`TotalPrice`).  This file embeds the data model and the pure part of
the pipeline (everything after the HTTP response has been decoded) and
proves the specification claims about it.

Modelling conventions:
* `rusty_money::Money` (backed by `rust_decimal::Decimal`) is modelled as `ℚ`.
  For the magnitudes occurring here (2-decimal SEK strings, division by 1000,
  multiplication by 0.25) `Decimal` arithmetic is exact, and `rusty_money`
  applies no rounding in `+`, `*`, `/` (rounding happens only in `Display`
  or via an explicit `round` call, neither of which `lib.rs` uses).
* `chrono::NaiveDateTime` is modelled as a record of numeric fields;
  `chrono`'s calendar (weekday computation) is the proleptic Gregorian
  calendar, embedded below via Sakamoto's algorithm.
* behaviour of dependency code that is not part of this repository
  (the string parsers of `rusty_money` and `chrono`, the `chrono-tz`
  Europe/Stockholm table) is modelled from the spec; each such definition
  carries a doc comment saying so.
-/

/-- Days of the week, as in `chrono::Weekday` (`Mon` … `Sun`). -/
inductive Weekday where
  | mon | tue | wed | thu | fri | sat | sun
deriving DecidableEq

/-- A naive local date-time (`chrono::NaiveDateTime`): wall-clock fields with
no attached UTC offset. -/
structure NaiveDateTime where
  year : ℕ
  month : ℕ
  day : ℕ
  hour : ℕ
  minute : ℕ
  second : ℕ
deriving DecidableEq

/-- Gregorian leap-year rule. -/
def isLeapYear (y : ℕ) : Bool := (y % 4 == 0 && y % 100 != 0) || y % 400 == 0

/-- Length of a month in the Gregorian calendar. -/
def daysInMonth (y m : ℕ) : ℕ :=
  if m = 2 then (if isLeapYear y then 29 else 28)
  else if m = 4 ∨ m = 6 ∨ m = 9 ∨ m = 11 then 30
  else 31

/-- Validity of a naive date-time, as `chrono` enforces on construction
(and as the text format `YYYY-MM-DDTHH:MM:SS` bounds the year). -/
def NaiveDateTime.valid (t : NaiveDateTime) : Prop :=
  t.year ≤ 9999 ∧ 1 ≤ t.month ∧ t.month ≤ 12 ∧ 1 ≤ t.day ∧
    t.day ≤ daysInMonth t.year t.month ∧ t.hour < 24 ∧ t.minute < 60 ∧ t.second < 60

instance (t : NaiveDateTime) : Decidable t.valid := by
  unfold NaiveDateTime.valid; infer_instance

/-- Day of week of a Gregorian date by Sakamoto's algorithm; `0` is Sunday,
`6` is Saturday.  (`-y/100` is replaced by `+6*(y/100)`, equal mod 7.) -/
def sakamoto (y m d : ℕ) : ℕ :=
  let y' := if m < 3 then y - 1 else y
  let t := [0, 3, 2, 5, 0, 3, 5, 1, 4, 6, 2, 4].getD (m - 1) 0
  (d + t + y' + y' / 4 + 6 * (y' / 100) + y' / 400) % 7

/-- Weekday of a naive date-time, as `chrono::Datelike::weekday`. -/
def weekdayOf (t : NaiveDateTime) : Weekday :=
  match sakamoto t.year t.month t.day with
  | 0 => .sun
  | 1 => .mon
  | 2 => .tue
  | 3 => .wed
  | 4 => .thu
  | 5 => .fri
  | _ => .sat

/-- Day number of the last Sunday of a 31-day month. -/
def lastSundayDay (y m : ℕ) : ℕ := 31 - sakamoto y m 31

/-- Modelled from the spec: the "spring-forward" gap of the Europe/Stockholm
time zone (`chrono-tz` data is not part of this repository).  Under the EU
daylight-saving rules in force since 1996, local times 02:00:00–02:59:59 on
the last Sunday of March do not exist. -/
def springGap (t : NaiveDateTime) : Bool :=
  t.month == 3 && t.day == lastSundayDay t.year 3 && t.hour == 2

/-- Modelled from the spec: the "fall-back" overlap of Europe/Stockholm.
Local times 02:00:00–02:59:59 on the last Sunday of October occur twice. -/
def fallOverlap (t : NaiveDateTime) : Bool :=
  t.month == 10 && t.day == lastSundayDay t.year 10 && t.hour == 2

/-- Modelled from the spec: `NaiveDateTime::and_local_timezone(Stockholm)`
followed by `LocalResult::single()` — `some` exactly when the naive local
time resolves to a unique Stockholm instant, `none` on a DST gap or overlap.
The zoned result is represented by its local wall-clock fields, which is all
the pricing code reads from it (`weekday()` and `time().hour()`). -/
def stockholmSingle (t : NaiveDateTime) : Option NaiveDateTime :=
  if springGap t || fallOverlap t then none else some t

/-- `rusty_money::Money` amounts in SEK major units, modelled as exact
rationals (see the file header). -/
abbrev Money := ℚ

/-- `Money::from_minor(n, SEK)`: `n` öre is `n / 100` SEK. -/
def Money.from_minor (n : ℤ) : Money := (n : ℚ) / 100

/-- `'0'..='9'` test on a character, by code point. -/
def isDigitChar (c : Char) : Bool := decide (48 ≤ c.toNat) && decide (c.toNat ≤ 57)

/-- Numeric value of a string of decimal digit characters. -/
def digitsVal (l : List Char) : ℕ :=
  l.foldl (fun acc c => 10 * acc + (c.toNat - 48)) 0

/-- Modelled from the spec: the numeric core of `rusty_money`'s
`Money::from_str` (dependency code, not in this repository).  Per the spec a
column value is "a decimal number rendered as a locale-formatted string
(comma or period decimal separator must be handled per the source API's
convention)": digits, optionally followed by one separator (`.` or `,`) and
at least one fraction digit. -/
def parseDecimalChars (cs : List Char) : Option ℚ :=
  let intPart := cs.takeWhile isDigitChar
  let rest := cs.dropWhile isDigitChar
  if intPart.isEmpty then none
  else
    match rest with
    | [] => some (digitsVal intPart : ℚ)
    | sep :: frac =>
      if (sep == '.' || sep == ',') && !frac.isEmpty && frac.all isDigitChar then
        some ((digitsVal intPart : ℚ) + (digitsVal frac : ℚ) / (10 : ℚ) ^ frac.length)
      else none

/-- Modelled from the spec: `Money::from_str(s, SEK)`.  The library
documentation also admits a leading minus sign ("-100.00"). -/
def Money.from_str (s : String) : Option Money :=
  match s.toList with
  | '-' :: cs => (parseDecimalChars cs).map (fun q => -q)
  | cs => parseDecimalChars cs

/-- A `(Name, Value)` column of one API row (`struct Column`). -/
structure Column where
  name : String
  value : String
deriving DecidableEq

/-- One decoded API row (`struct Row`). -/
structure Row where
  start_time : NaiveDateTime
  columns : List Column
  is_extra_row : Bool
deriving DecidableEq

/-- The `data` payload of the API response (`struct Data`). -/
structure Data where
  rows : List Row
deriving DecidableEq

/-- The decoded API response (`struct Response`). -/
structure Response where
  data : Data
deriving DecidableEq

/-- One hour's fully loaded price (`pub struct TotalPrice`).  `start_time`
holds the local wall-clock fields of the zoned Stockholm start time. -/
structure TotalPrice where
  start_time : NaiveDateTime
  energy : Money
  vat : Money
  fee : Money
  tax : Money
deriving DecidableEq

/-- The grid-fee match of `TotalPrice::compute`, arm for arm:
`(_, 0..=5) | (_, 22..) | (Sat, _) | (Sun, _) => 0.12 SEK`, otherwise
`0.70 SEK`. -/
def feeFor (w : Weekday) (h : ℕ) : Money :=
  if h ≤ 5 then Money.from_minor 12
  else if 22 ≤ h then Money.from_minor 12
  else if w = Weekday.sat then Money.from_minor 12
  else if w = Weekday.sun then Money.from_minor 12
  else Money.from_minor 70

/-- `TotalPrice::compute(start_time, energy)` from `lib.rs`:
`vat = energy * dec!(0.25)` (no rounding anywhere in the library's
multiplication), the tiered fee, and the flat `0.45` SEK tax. -/
def TotalPrice.compute (start_time : NaiveDateTime) (energy : Money) : TotalPrice :=
  { start_time := start_time
    energy := energy
    vat := energy * (25 / 100 : ℚ)
    fee := feeFor (weekdayOf start_time) start_time.hour
    tax := Money.from_minor 45 }

/-- `TotalPrice::sum`: `energy + fee + tax + vat`, recomputed from the stored
fields on every call (the struct has no cached total). -/
def TotalPrice.sum (p : TotalPrice) : Money :=
  p.energy + p.fee + p.tax + p.vat

/-- The per-row body of the `flat_map` in `get_prices`: find the first column
named `area`, parse its value, resolve the start time to a unique Stockholm
instant, and price `value / 1000` (SEK/MWh to SEK/kWh). -/
def rowStep (area : String) (r : Row) : Option TotalPrice :=
  (r.columns.find? (fun c => c.name == area)).bind fun c =>
    (Money.from_str c.value).bind fun price =>
      (stockholmSingle r.start_time).map fun local_start_time =>
        TotalPrice.compute local_start_time (price / 1000)

/-- The row pipeline of `get_prices`:
`rows.iter().filter(|r| !r.is_extra_row).flat_map(...).collect()`. -/
def priceRows (area : String) (rows : List Row) : List TotalPrice :=
  (rows.filter (fun r => !r.is_extra_row)).filterMap (rowStep area)

/-- The fatal error stages of `get_prices` (`reqwest::Error`): transport
failure or body-decode failure.  Everything after a successful decode is
pure and infallible. -/
inductive FetchError where
  | transport
  | decode
deriving DecidableEq

/-- `get_prices` after the HTTP response has been successfully decoded:
the remaining computation is pure and always returns `Ok`. -/
def get_prices (area : String) (response : Response) : Except FetchError (List TotalPrice) :=
  Except.ok (priceRows area response.data.rows)

/-- Modelled from the spec: the custom date-time decoder
(`deserialize_partial_iso8601`, delegating to `chrono`'s
`NaiveDateTime::parse_from_str` with format `%Y-%m-%dT%H:%M:%S`, dependency
code not in this repository).  Per the spec, "decoding fails with a
`ParseError` if the format does not match exactly `YYYY-MM-DDTHH:MM:SS`":
exactly 19 characters, digits in the numeric positions, literal `-`, `T`,
`:` separators, and in-range calendar values.
`assembleDT` collects the digit characters of each numeric field into a
`NaiveDateTime`; `parseChars` is the decoder itself. -/
def assembleDT (y1 y2 y3 y4 m1 m2 d1 d2 h1 h2 n1 n2 s1 s2 : Char) : NaiveDateTime :=
  { year := digitsVal [y1, y2, y3, y4]
    month := digitsVal [m1, m2]
    day := digitsVal [d1, d2]
    hour := digitsVal [h1, h2]
    minute := digitsVal [n1, n2]
    second := digitsVal [s1, s2] }

def parseChars : List Char → Option NaiveDateTime
  | y1 :: y2 :: y3 :: y4 :: c1 :: m1 :: m2 :: c2 :: d1 :: d2 :: c3 ::
      h1 :: h2 :: c4 :: n1 :: n2 :: c5 :: s1 :: s2 :: [] =>
    if c1 = '-' ∧ c2 = '-' ∧ c3 = 'T' ∧ c4 = ':' ∧ c5 = ':' ∧
        [y1, y2, y3, y4, m1, m2, d1, d2, h1, h2, n1, n2, s1, s2].all isDigitChar = true then
      if (assembleDT y1 y2 y3 y4 m1 m2 d1 d2 h1 h2 n1 n2 s1 s2).valid then
        some (assembleDT y1 y2 y3 y4 m1 m2 d1 d2 h1 h2 n1 n2 s1 s2)
      else none
    else none
  | _ => none

/-- String-level wrapper of the date-time decoder. -/
def deserializePartialIso8601 (s : String) : Option NaiveDateTime :=
  parseChars s.toList

/-- Two-digit zero-padded decimal rendering. -/
def pad2 (n : ℕ) : List Char := [Nat.digitChar (n / 10 % 10), Nat.digitChar (n % 10)]

/-- Four-digit zero-padded decimal rendering. -/
def pad4 (n : ℕ) : List Char :=
  [Nat.digitChar (n / 1000 % 10), Nat.digitChar (n / 100 % 10),
   Nat.digitChar (n / 10 % 10), Nat.digitChar (n % 10)]

/-- The canonical `YYYY-MM-DDTHH:MM:SS` rendering of a naive date-time. -/
def renderDT (t : NaiveDateTime) : String :=
  ⟨pad4 t.year ++ '-' :: (pad2 t.month ++ '-' :: (pad2 t.day ++
    'T' :: (pad2 t.hour ++ ':' :: (pad2 t.minute ++ ':' :: pad2 t.second))))⟩

example : Money.from_str "523.45" = some (52345 / 100 : ℚ) := by
  simp [Money.from_str, parseDecimalChars, digitsVal, isDigitChar]
  norm_num
example : Money.from_str "523,45" = some (52345 / 100 : ℚ) := by
  simp [Money.from_str, parseDecimalChars, digitsVal, isDigitChar]
  norm_num
example : Money.from_str "-100.00" = some (-100 : ℚ) := by
  simp [Money.from_str, parseDecimalChars, digitsVal, isDigitChar]
example : Money.from_str "abc" = none := by
  simp [Money.from_str, parseDecimalChars, digitsVal, isDigitChar]
example : weekdayOf ⟨2022, 11, 9, 14, 0, 0⟩ = Weekday.wed := by decide
example : lastSundayDay 2022 3 = 27 := by decide
example : lastSundayDay 2022 10 = 30 := by decide
example : stockholmSingle ⟨2022, 3, 27, 2, 30, 0⟩ = none := by decide
example : stockholmSingle ⟨2022, 10, 30, 2, 30, 0⟩ = none := by decide
example : stockholmSingle ⟨2022, 11, 9, 14, 0, 0⟩ = some ⟨2022, 11, 9, 14, 0, 0⟩ := by decide
example : deserializePartialIso8601 "2022-11-09T14:00:00" = some ⟨2022, 11, 9, 14, 0, 0⟩ := by
  decide
example : deserializePartialIso8601 "2022-11-09T14:00:00Z" = none := by decide
example : renderDT ⟨2022, 11, 9, 14, 0, 0⟩ = "2022-11-09T14:00:00" := by decide

/-- 2022-11-09T14:00:00 local Stockholm time: the spec's worked example
(a Wednesday, inside the daytime tariff window, far from any DST edge). -/
def exampleTime : NaiveDateTime := ⟨2022, 11, 9, 14, 0, 0⟩

/-- The spec's worked example row: area SE3 quoted at 523.45 SEK/MWh. -/
def exampleRow : Row := ⟨exampleTime, [⟨"SE3", "523.45"⟩], false⟩
/-- A synthetic summary row flagged `IsExtraRow`, used as a witness input. -/
def extraRow : Row := ⟨exampleTime, [⟨"SE3", "100.00"⟩], true⟩

/-- A row whose naive start time falls in the 2022 spring-forward gap
(2022-03-27 02:30 does not exist in Europe/Stockholm). -/
def gapRow : Row := ⟨⟨2022, 3, 27, 2, 30, 0⟩, [⟨"SE3", "100.00"⟩], false⟩

/-- C6: `sum()` returns exactly `energy + vat + fee + tax`, recomputed from
the four stored components on every call (the struct stores no total, so the
result is consistent with the components and reproducible for any
`TotalPrice` value, however it was constructed). -/
theorem sum_eq_components (p : TotalPrice) :
    p.sum = p.energy + p.vat + p.fee + p.tax := by
  unfold TotalPrice.sum
  ring

/-- C1 (amended): for every price produced by `TotalPrice::compute` (hence by
the pipeline), `vat` is exactly `energy * 0.25` at full decimal precision;
no rounding to the minor currency unit is applied (`4 * vat = energy`
recovers the energy component exactly). -/
theorem vat_exact_quarter (t : NaiveDateTime) (e : Money) :
    (TotalPrice.compute t e).vat = e * (25 / 100) ∧
      4 * (TotalPrice.compute t e).vat = e := by
  constructor
  · rfl
  · show 4 * (e * (25 / 100 : ℚ)) = e
    ring

/-- C1 as stated is false on the code: on the spec's own worked example the
pipeline produces `vat = 0.1308625` SEK, which is not a whole number of öre
and hence not the result of rounding `energy * 0.25` to 2 decimal places
under any rounding rule. -/
theorem vat_not_rounded_counterexample :
    (priceRows "SE3" [exampleRow]).map TotalPrice.vat = [(1308625 / 10000000 : ℚ)] ∧
      ¬ ∃ n : ℤ, (1308625 / 10000000 : ℚ) = (n : ℚ) / 100 := by
  constructor
  · simp [priceRows, rowStep, exampleRow, exampleTime, Money.from_str, parseDecimalChars,
      digitsVal, isDigitChar, stockholmSingle, springGap, fallOverlap, lastSundayDay,
      sakamoto, TotalPrice.compute]
    norm_num
  · rintro ⟨n, hn⟩
    have h2 : ((n * 100000 : ℤ) : ℚ) = (1308625 : ℚ) := by
      push_cast
      field_simp at hn
      linarith
    have h3 : (n * 100000 : ℤ) = 1308625 := by exact_mod_cast h2
    omega

/-- C2: the grid fee is 0.70 SEK exactly when the zoned local start time is
on Monday through Friday with wall-clock hour in [6,21]; in every other case
(weekday hours 0-5 or 22-23, and any hour on Saturday or Sunday) it is
0.12 SEK. -/
theorem fee_tier_iff (t : NaiveDateTime) (e : Money) (h : t.hour < 24) :
    ((TotalPrice.compute t e).fee = 70 / 100 ↔
      ((weekdayOf t = Weekday.mon ∨ weekdayOf t = Weekday.tue ∨
          weekdayOf t = Weekday.wed ∨ weekdayOf t = Weekday.thu ∨
          weekdayOf t = Weekday.fri) ∧ 6 ≤ t.hour ∧ t.hour ≤ 21)) ∧
    (¬ ((weekdayOf t = Weekday.mon ∨ weekdayOf t = Weekday.tue ∨
          weekdayOf t = Weekday.wed ∨ weekdayOf t = Weekday.thu ∨
          weekdayOf t = Weekday.fri) ∧ 6 ≤ t.hour ∧ t.hour ≤ 21) →
      (TotalPrice.compute t e).fee = 12 / 100) := by
  have hfee : (TotalPrice.compute t e).fee = feeFor (weekdayOf t) t.hour := rfl
  have hval : ∀ w : Weekday, ∀ hr : ℕ,
      feeFor w hr =
        if hr ≤ 5 ∨ 22 ≤ hr ∨ w = Weekday.sat ∨ w = Weekday.sun then (12 : ℚ) / 100
        else (70 : ℚ) / 100 := by
    intro w hr
    unfold feeFor Money.from_minor
    push_cast
    split_ifs <;> tauto
  have hmonfri : weekdayOf t ≠ Weekday.sat → weekdayOf t ≠ Weekday.sun →
      (weekdayOf t = Weekday.mon ∨ weekdayOf t = Weekday.tue ∨
        weekdayOf t = Weekday.wed ∨ weekdayOf t = Weekday.thu ∨
        weekdayOf t = Weekday.fri) := by
    intro hsat hsun
    rcases hq : weekdayOf t <;> rw [hq] at hsat hsun <;>
      first
        | exact absurd rfl hsat
        | exact absurd rfl hsun
        | tauto
  constructor
  · rw [hfee, hval]
    split_ifs with hc
    · constructor
      · intro habs
        exfalso
        norm_num at habs
      · rintro ⟨hwd, h6, h21⟩
        rcases hc with h5 | h22 | hsat | hsun
        · omega
        · omega
        · rcases hwd with h' | h' | h' | h' | h' <;> rw [h'] at hsat <;>
            exact absurd hsat (by decide)
        · rcases hwd with h' | h' | h' | h' | h' <;> rw [h'] at hsun <;>
            exact absurd hsun (by decide)
    · push_neg at hc
      obtain ⟨h5, h22, hsat, hsun⟩ := hc
      exact ⟨fun _ => ⟨hmonfri hsat hsun, by omega, by omega⟩, fun _ => rfl⟩
  · intro hnot
    rw [hfee, hval]
    split_ifs with hc
    · rfl
    · exfalso
      push_neg at hc
      obtain ⟨h5, h22, hsat, hsun⟩ := hc
      exact hnot ⟨hmonfri hsat hsun, by omega, by omega⟩

/-- C5 as stated is false on the code: `TotalPrice::compute` is public and is
reached by the pipeline with whatever amount the area column parses to (spot
prices can be negative, and the money parser accepts a leading minus); a
negative energy input lands unchanged in `energy` and makes `vat` negative
too. -/
theorem components_nonneg_counterexample :
    (TotalPrice.compute exampleTime (-1)).energy < 0 ∧
      (TotalPrice.compute exampleTime (-1)).vat < 0 := by
  constructor
  · show (-1 : ℚ) < 0
    norm_num
  · show (-1 : ℚ) * (25 / 100) < 0
    norm_num

/-- C5 (amended): `fee` and `tax` are always non-negative, and whenever the
energy input is non-negative (as with any non-negative quoted price) all
four components of the computed price are non-negative. -/
theorem components_nonneg (t : NaiveDateTime) (e : Money) :
    0 ≤ (TotalPrice.compute t e).fee ∧ 0 ≤ (TotalPrice.compute t e).tax ∧
      (0 ≤ e →
        0 ≤ (TotalPrice.compute t e).energy ∧ 0 ≤ (TotalPrice.compute t e).vat) := by
  refine ⟨?_, ?_, fun he => ⟨he, ?_⟩⟩
  · show 0 ≤ feeFor (weekdayOf t) t.hour
    unfold feeFor Money.from_minor
    split_ifs <;> norm_num
  · show 0 ≤ (45 : ℤ) / (100 : ℚ)
    norm_num
  · show 0 ≤ e * (25 / 100 : ℚ)
    positivity

/-- Witness for C5's amended theorem at the worked-example time with a
non-negative energy amount. -/
theorem components_nonneg_witness :
    0 ≤ (TotalPrice.compute exampleTime 1).fee ∧
      0 ≤ (TotalPrice.compute exampleTime 1).tax ∧
      (0 ≤ (1 : Money) →
        0 ≤ (TotalPrice.compute exampleTime 1).energy ∧
          0 ≤ (TotalPrice.compute exampleTime 1).vat) :=
  components_nonneg exampleTime 1

/-- Witness for C2 at the worked-example time (Wednesday 14:00). -/
theorem fee_tier_iff_witness :
    exampleTime.hour < 24 ∧
      ((TotalPrice.compute exampleTime (1 : Money)).fee = 70 / 100 ↔
        ((weekdayOf exampleTime = Weekday.mon ∨ weekdayOf exampleTime = Weekday.tue ∨
            weekdayOf exampleTime = Weekday.wed ∨ weekdayOf exampleTime = Weekday.thu ∨
            weekdayOf exampleTime = Weekday.fri) ∧
          6 ≤ exampleTime.hour ∧ exampleTime.hour ≤ 21)) :=
  ⟨by decide, (fee_tier_iff exampleTime 1 (by decide)).1⟩


/-- C8: a row flagged `is_extra_row` contributes nothing to the output,
wherever it sits in the response and whatever its other content is. -/
theorem extra_rows_dropped (area : String) (l1 l2 : List Row) (r : Row)
    (h : r.is_extra_row = true) :
    priceRows area (l1 ++ r :: l2) = priceRows area (l1 ++ l2) := by
  unfold priceRows
  simp [List.filter_append, List.filter_cons, h]

/-- Witness for C8: an extra row inserted between two ordinary rows leaves
the output unchanged. -/
theorem extra_rows_dropped_witness :
    priceRows "SE3" ([exampleRow] ++ extraRow :: [gapRow]) =
      priceRows "SE3" ([exampleRow] ++ [gapRow]) :=
  extra_rows_dropped "SE3" [exampleRow] [gapRow] extraRow rfl

/-- `List.find?` returns the first match: anything before the first column
named `area` is skipped, anything after it is ignored. -/
theorem find_first_area (area : String) (l1 l2 : List Column) (c : Column)
    (h1 : ∀ c' ∈ l1, (c'.name == area) = false) (hc : c.name = area) :
    (l1 ++ c :: l2).find? (fun col => col.name == area) = some c := by
  induction l1 with
  | nil =>
    have hc' : (c.name == area) = true := by simp [hc]
    simp [List.find?_cons, hc']
  | cons a as ih =>
    have ha : (a.name == area) = false := h1 a (by simp)
    simp only [List.cons_append, List.find?_cons, ha]
    exact ih (fun c' hc' => h1 c' (by simp [hc']))

/-- C10: when several columns carry the requested area name, the first one
(in column order) is the one parsed and priced; the columns after it, in
particular later duplicates, do not influence the result. -/
theorem first_area_column_wins (area : String) (t : NaiveDateTime) (b : Bool)
    (l1 l2 : List Column) (c : Column)
    (h1 : ∀ c' ∈ l1, (c'.name == area) = false) (hc : c.name = area) :
    rowStep area ⟨t, l1 ++ c :: l2, b⟩ =
      (Money.from_str c.value).bind fun price =>
        (stockholmSingle t).map fun z => TotalPrice.compute z (price / 1000) := by
  unfold rowStep
  rw [find_first_area area l1 l2 c h1 hc]
  rfl

/-- Witness for C10: with a non-matching column before it and a duplicate
`SE3` column after it, the first `SE3` column's value is the one priced. -/
theorem first_area_column_wins_witness :
    rowStep "SE3" ⟨exampleTime, [⟨"SE2", "100.00"⟩] ++ ⟨"SE3", "523.45"⟩ :: [⟨"SE3", "999.99"⟩],
        false⟩ =
      (Money.from_str "523.45").bind fun price =>
        (stockholmSingle exampleTime).map fun z => TotalPrice.compute z (price / 1000) :=
  first_area_column_wins "SE3" exampleTime false [⟨"SE2", "100.00"⟩] [⟨"SE3", "999.99"⟩]
    ⟨"SE3", "523.45"⟩ (by decide) rfl

/-- C3: a decoded row that is not extra, has a (first) column named `area`
whose value parses, and whose naive start time resolves to a unique
Stockholm instant contributes exactly one `PricedHour`, in its input
position: the output is the prices of the preceding rows, then this row's
price, then the prices of the following rows — no reordering or sorting. -/
theorem valid_row_one_output (area : String) (l1 l2 : List Row) (r : Row)
    (c : Column) (q : Money) (z : NaiveDateTime)
    (hextra : r.is_extra_row = false)
    (hfind : r.columns.find? (fun col => col.name == area) = some c)
    (hparse : Money.from_str c.value = some q)
    (hz : stockholmSingle r.start_time = some z) :
    priceRows area (l1 ++ r :: l2) =
      priceRows area l1 ++ TotalPrice.compute z (q / 1000) :: priceRows area l2 := by
  have hstep : rowStep area r = some (TotalPrice.compute z (q / 1000)) := by
    unfold rowStep
    rw [hfind]
    simp [hparse, hz]
  unfold priceRows
  simp [List.filter_append, List.filter_cons, hextra, List.filterMap_append, hstep]

/-- Witness for C3: the worked-example row between an extra row and a
gap-time row yields exactly its own priced hour in place. -/
theorem valid_row_one_output_witness :
    priceRows "SE3" ([extraRow] ++ exampleRow :: [gapRow]) =
      priceRows "SE3" [extraRow] ++
        TotalPrice.compute exampleTime ((52345 / 100 : ℚ) / 1000) :: priceRows "SE3" [gapRow] :=
  valid_row_one_output "SE3" [extraRow] [gapRow] exampleRow ⟨"SE3", "523.45"⟩ (52345 / 100)
    exampleTime rfl (by decide)
    (by simp [Money.from_str, parseDecimalChars, digitsVal, isDigitChar]; norm_num)
    (by decide)

/-- C4: a row whose columns lack the requested area, whose value does not
parse, or whose start time is ambiguous or nonexistent in Stockholm is
dropped; no error is raised and the call still returns `Ok` with the prices
of the remaining rows. -/
theorem row_failures_nonfatal (area : String) (l1 l2 : List Row) (r : Row)
    (h : r.columns.find? (fun col => col.name == area) = none ∨
        (∃ c, r.columns.find? (fun col => col.name == area) = some c ∧
          Money.from_str c.value = none) ∨
        stockholmSingle r.start_time = none) :
    rowStep area r = none ∧
      get_prices area ⟨⟨l1 ++ r :: l2⟩⟩ =
        Except.ok (priceRows area l1 ++ priceRows area l2) := by
  have hstep : rowStep area r = none := by
    rcases h with hfind | ⟨c, hfind, hparse⟩ | hz
    · unfold rowStep
      rw [hfind]
      rfl
    · unfold rowStep
      rw [hfind]
      simp [hparse]
    · unfold rowStep
      cases hfind : r.columns.find? (fun col => col.name == area) with
      | none => rfl
      | some c =>
        simp only [Option.some_bind]
        cases hparse : Money.from_str c.value with
        | none => rfl
        | some q => simp [hz]
  refine ⟨hstep, ?_⟩
  unfold get_prices priceRows
  cases hextra : r.is_extra_row <;>
    simp [List.filter_append, List.filter_cons, hextra, List.filterMap_append, hstep]

/-- Witness for C4: a spring-forward gap row between two ordinary rows is
dropped while the call returns `Ok` with the other rows' prices. -/
theorem row_failures_nonfatal_witness :
    rowStep "SE3" gapRow = none ∧
      get_prices "SE3" ⟨⟨[exampleRow] ++ gapRow :: [extraRow]⟩⟩ =
        Except.ok (priceRows "SE3" [exampleRow] ++ priceRows "SE3" [extraRow]) :=
  row_failures_nonfatal "SE3" [exampleRow] [extraRow] gapRow
    (Or.inr (Or.inr (by decide)))

/-- C7: the parsed column value is a price per MWh; the pipeline prices
exactly `value / 1000` per kWh, and the division is exact on the underlying
representation: multiplying the energy component by 1000 recovers the parsed
value with no precision loss. -/
theorem energy_per_kwh_exact (area : String) (t : NaiveDateTime) (cols : List Column)
    (b : Bool) (c : Column) (q : Money) (z : NaiveDateTime)
    (hfind : cols.find? (fun col => col.name == area) = some c)
    (hparse : Money.from_str c.value = some q)
    (hz : stockholmSingle t = some z) :
    ∃ p, rowStep area ⟨t, cols, b⟩ = some p ∧ p.energy = q / 1000 ∧
      p.energy * 1000 = q := by
  refine ⟨TotalPrice.compute z (q / 1000), ?_, rfl, ?_⟩
  · unfold rowStep
    rw [hfind]
    simp [hparse, hz]
  · show q / 1000 * 1000 = q
    rw [div_mul_cancel₀]
    norm_num

/-- Witness for C7, the spec's worked example: `"523.45"` (SEK/MWh) parses
to 523.45 and prices to `energy = 0.52345` SEK/kWh exactly. -/
theorem energy_per_kwh_exact_witness :
    Money.from_str "523.45" = some (52345 / 100 : ℚ) ∧
      ((52345 / 100 : ℚ) / 1000 = (52345 / 100000 : ℚ)) ∧
      ∃ p, rowStep "SE3" ⟨exampleTime, [⟨"SE3", "523.45"⟩], false⟩ = some p ∧
        p.energy = (52345 / 100 : ℚ) / 1000 ∧ p.energy * 1000 = (52345 / 100 : ℚ) :=
  ⟨by simp [Money.from_str, parseDecimalChars, digitsVal, isDigitChar]; norm_num,
    by norm_num,
    energy_per_kwh_exact "SE3" exampleTime [⟨"SE3", "523.45"⟩] false ⟨"SE3", "523.45"⟩
      (52345 / 100) exampleTime rfl
      (by simp [Money.from_str, parseDecimalChars, digitsVal, isDigitChar]; norm_num)
      (by decide)⟩

/-- Characters with equal code points are equal. -/
theorem char_toNat_inj {a b : Char} (h : a.toNat = b.toNat) : a = b :=
  Char.ext (UInt32.ext h)

/-- Code point of the digit character of `d < 10`. -/
theorem toNat_digitChar (d : ℕ) (h : d < 10) : (Nat.digitChar d).toNat = 48 + d := by
  interval_cases d <;> decide

/-- `Nat.digitChar` of `d < 10` is a decimal digit character. -/
theorem isDigitChar_digitChar (d : ℕ) (h : d < 10) :
    isDigitChar (Nat.digitChar d) = true := by
  interval_cases d <;> decide

/-- A digit character's code point lies in `[48, 57]`. -/
theorem isDigitChar_bounds {c : Char} (h : isDigitChar c = true) :
    48 ≤ c.toNat ∧ c.toNat ≤ 57 := by
  unfold isDigitChar at h
  simpa using h

/-- Rebuilding a digit character from its numeric value gives it back. -/
theorem digitChar_round {c : Char} (h : isDigitChar c = true) :
    Nat.digitChar (c.toNat - 48) = c := by
  obtain ⟨h1, h2⟩ := isDigitChar_bounds h
  apply char_toNat_inj
  rw [toNat_digitChar (c.toNat - 48) (by omega)]
  omega

/-- Value of a two-digit character group. -/
theorem digitsVal_two (a b : Char) :
    digitsVal [a, b] = 10 * (a.toNat - 48) + (b.toNat - 48) := by
  simp only [digitsVal, List.foldl_cons, List.foldl_nil]
  omega

/-- Value of a four-digit character group. -/
theorem digitsVal_four (a b c d : Char) :
    digitsVal [a, b, c, d] =
      1000 * (a.toNat - 48) + 100 * (b.toNat - 48) + 10 * (c.toNat - 48) +
        (d.toNat - 48) := by
  simp only [digitsVal, List.foldl_cons, List.foldl_nil]
  omega

/-- Rendering the value of two digit characters gives the characters back. -/
theorem pad2_digitsVal {a b : Char} (ha : isDigitChar a = true)
    (hb : isDigitChar b = true) : pad2 (digitsVal [a, b]) = [a, b] := by
  obtain ⟨ha1, ha2⟩ := isDigitChar_bounds ha
  obtain ⟨hb1, hb2⟩ := isDigitChar_bounds hb
  unfold pad2
  rw [digitsVal_two]
  have e1 : (10 * (a.toNat - 48) + (b.toNat - 48)) / 10 % 10 = a.toNat - 48 := by omega
  have e2 : (10 * (a.toNat - 48) + (b.toNat - 48)) % 10 = b.toNat - 48 := by omega
  rw [e1, e2, digitChar_round ha, digitChar_round hb]

/-- Rendering the value of four digit characters gives the characters back. -/
theorem pad4_digitsVal {a b c d : Char} (ha : isDigitChar a = true)
    (hb : isDigitChar b = true) (hc : isDigitChar c = true)
    (hd : isDigitChar d = true) : pad4 (digitsVal [a, b, c, d]) = [a, b, c, d] := by
  obtain ⟨ha1, ha2⟩ := isDigitChar_bounds ha
  obtain ⟨hb1, hb2⟩ := isDigitChar_bounds hb
  obtain ⟨hc1, hc2⟩ := isDigitChar_bounds hc
  obtain ⟨hd1, hd2⟩ := isDigitChar_bounds hd
  unfold pad4
  rw [digitsVal_four]
  have e1 : (1000 * (a.toNat - 48) + 100 * (b.toNat - 48) + 10 * (c.toNat - 48) +
      (d.toNat - 48)) / 1000 % 10 = a.toNat - 48 := by omega
  have e2 : (1000 * (a.toNat - 48) + 100 * (b.toNat - 48) + 10 * (c.toNat - 48) +
      (d.toNat - 48)) / 100 % 10 = b.toNat - 48 := by omega
  have e3 : (1000 * (a.toNat - 48) + 100 * (b.toNat - 48) + 10 * (c.toNat - 48) +
      (d.toNat - 48)) / 10 % 10 = c.toNat - 48 := by omega
  have e4 : (1000 * (a.toNat - 48) + 100 * (b.toNat - 48) + 10 * (c.toNat - 48) +
      (d.toNat - 48)) % 10 = d.toNat - 48 := by omega
  rw [e1, e2, e3, e4, digitChar_round ha, digitChar_round hb, digitChar_round hc,
    digitChar_round hd]

/-- Reading back the two-digit rendering of `n < 100`. -/
theorem digitsVal_digits2 (n : ℕ) (h : n < 100) :
    digitsVal [Nat.digitChar (n / 10 % 10), Nat.digitChar (n % 10)] = n := by
  rw [digitsVal_two, toNat_digitChar _ (by omega), toNat_digitChar _ (by omega)]
  omega

/-- Reading back the four-digit rendering of `n < 10000`. -/
theorem digitsVal_digits4 (n : ℕ) (h : n < 10000) :
    digitsVal [Nat.digitChar (n / 1000 % 10), Nat.digitChar (n / 100 % 10),
      Nat.digitChar (n / 10 % 10), Nat.digitChar (n % 10)] = n := by
  rw [digitsVal_four, toNat_digitChar _ (by omega), toNat_digitChar _ (by omega),
    toNat_digitChar _ (by omega), toNat_digitChar _ (by omega)]
  omega

/-- No Gregorian month is longer than 31 days. -/
theorem daysInMonth_le (y m : ℕ) : daysInMonth y m ≤ 31 := by
  unfold daysInMonth
  split_ifs <;> norm_num

/-- Strings with the same character list are equal. -/
theorem string_eq_of_toList {s r : String} (h : s.toList = r.toList) : s = r := by
  cases s
  cases r
  simp only [String.toList] at h
  rw [h]

/-- The character list of the canonical rendering. -/
theorem renderDT_toList (t : NaiveDateTime) :
    (renderDT t).toList =
      pad4 t.year ++ '-' :: (pad2 t.month ++ '-' :: (pad2 t.day ++
        'T' :: (pad2 t.hour ++ ':' :: (pad2 t.minute ++ ':' :: pad2 t.second)))) := rfl

/-- C9: decoding a `StartTime` string succeeds exactly on the strings in the
exact `YYYY-MM-DDTHH:MM:SS` format with in-range field values — any string
with a UTC offset, a trailing zone indicator, extra characters, or wrong
separators or digit counts makes decoding fail — and a well-formed string
decodes to the corresponding naive date-time. -/
theorem datetime_decode_iff (s : String) (t : NaiveDateTime) :
    deserializePartialIso8601 s = some t ↔ (t.valid ∧ s = renderDT t) := by
  constructor
  · intro h
    unfold deserializePartialIso8601 parseChars at h
    split at h
    next y1 y2 y3 y4 c1 m1 m2 c2 d1 d2 c3 h1 h2 c4 n1 n2 c5 s1 s2 heq =>
      split_ifs at h with hc hv
      · obtain ⟨e1, e2, e3, e4, e5, hdig⟩ := hc
        subst e1
        subst e2
        subst e3
        subst e4
        subst e5
        injection h with h
        subst h
        simp only [List.all_cons, List.all_nil, Bool.and_eq_true, Bool.and_true] at hdig
        obtain ⟨hy1, hy2, hy3, hy4, hm1, hm2, hd1, hd2, hh1, hh2, hn1, hn2, hs1, hs2⟩ := hdig
        refine ⟨hv, ?_⟩
        apply string_eq_of_toList
        rw [heq, renderDT_toList]
        simp only [assembleDT]
        rw [pad4_digitsVal hy1 hy2 hy3 hy4, pad2_digitsVal hm1 hm2, pad2_digitsVal hd1 hd2,
          pad2_digitsVal hh1 hh2, pad2_digitsVal hn1 hn2, pad2_digitsVal hs1 hs2]
        rfl
    next =>
      exact absurd h (by simp)
  · rintro ⟨hv, rfl⟩
    obtain ⟨hvy, hvm1, hvm2, hvd1, hvd2, hvh, hvn, hvs⟩ := hv
    have hdaybound : t.day ≤ 31 := le_trans hvd2 (daysInMonth_le t.year t.month)
    unfold deserializePartialIso8601
    rw [renderDT_toList]
    unfold pad4 pad2
    simp only [List.cons_append, List.nil_append, parseChars]
    have hasm : assembleDT (Nat.digitChar (t.year / 1000 % 10))
        (Nat.digitChar (t.year / 100 % 10)) (Nat.digitChar (t.year / 10 % 10))
        (Nat.digitChar (t.year % 10)) (Nat.digitChar (t.month / 10 % 10))
        (Nat.digitChar (t.month % 10)) (Nat.digitChar (t.day / 10 % 10))
        (Nat.digitChar (t.day % 10)) (Nat.digitChar (t.hour / 10 % 10))
        (Nat.digitChar (t.hour % 10)) (Nat.digitChar (t.minute / 10 % 10))
        (Nat.digitChar (t.minute % 10)) (Nat.digitChar (t.second / 10 % 10))
        (Nat.digitChar (t.second % 10)) = t := by
      unfold assembleDT
      rw [digitsVal_digits4 _ (by omega), digitsVal_digits2 _ (by omega),
        digitsVal_digits2 _ (by omega), digitsVal_digits2 _ (by omega),
        digitsVal_digits2 _ (by omega), digitsVal_digits2 _ (by omega)]
    have hdig : [Nat.digitChar (t.year / 1000 % 10), Nat.digitChar (t.year / 100 % 10),
        Nat.digitChar (t.year / 10 % 10), Nat.digitChar (t.year % 10),
        Nat.digitChar (t.month / 10 % 10), Nat.digitChar (t.month % 10),
        Nat.digitChar (t.day / 10 % 10), Nat.digitChar (t.day % 10),
        Nat.digitChar (t.hour / 10 % 10), Nat.digitChar (t.hour % 10),
        Nat.digitChar (t.minute / 10 % 10), Nat.digitChar (t.minute % 10),
        Nat.digitChar (t.second / 10 % 10),
        Nat.digitChar (t.second % 10)].all isDigitChar = true := by
      refine List.all_eq_true.mpr ?_
      intro x hx
      simp only [List.mem_cons, List.not_mem_nil, or_false] at hx
      rcases hx with rfl | rfl | rfl | rfl | rfl | rfl | rfl | rfl | rfl | rfl | rfl |
          rfl | rfl | rfl <;>
        exact isDigitChar_digitChar _ (Nat.mod_lt _ (by norm_num))
    rw [hasm]
    rw [if_pos ⟨by trivial, by trivial, by trivial, by trivial, by trivial, hdig⟩]
    rw [if_pos (show t.valid from ⟨hvy, hvm1, hvm2, hvd1, hvd2, hvh, hvn, hvs⟩)]

/-- Witness for C9: the worked example's `StartTime` decodes to the expected
naive date-time. -/
theorem datetime_decode_iff_witness :
    deserializePartialIso8601 "2022-11-09T14:00:00" = some exampleTime :=
  (datetime_decode_iff "2022-11-09T14:00:00" exampleTime).mpr ⟨by decide, by decide⟩
